import Mathlib

/-!
# spitter: a shallow embedding of the synchronisation engine

Source: `src/spitter/spitter.go` (package `spitter`).

Conventions of the embedding.

* A Go `string` is a finite sequence of bytes.  It is represented as
  `List Char`, one `Char` per byte, so a byte offset of the source is a list
  index here and `len(s)` is `s.length`.
* A Go `error` result is an `Option GoError` (`none` is `nil`).
* Everything the program does to the outside world (environment reads, file
  system, sub-process, network, standard output) is recorded in a trace of
  `Event`s, newest event first.  The answers of the outside world are given by
  an `Env`; each answer may depend on the whole history of events before the
  request, which covers every deterministic environment.
* Standard-library functions whose code is not part of the repository
  (`url.Parse`, `filepath.Join`, `json.Unmarshal`, `json.Marshal`) are fields
  of `Env`.
* A failed run-time bounds check (a Go panic) is the outcome `panicked`.
-/

namespace Spitter

/-- A Go string: a sequence of bytes, one `Char` per byte. -/
abbrev GoString := List Char

/-! ## Package `strings` (the functions the source calls) -/

/-- Go `strings.HasPrefix(s, prefix)`:
`len(s) >= len(prefix) && s[:len(prefix)] == prefix`. -/
def HasPrefix (s pre : GoString) : Bool :=
  decide (pre.length ≤ s.length) && (s.take pre.length == pre)

/-- Go `strings.Split(s, sep)` for a one-byte separator (the source only
splits on `"\n"`): the pieces between the separators, `Count(s, sep) + 1` of
them, so `Split "" sep = [""]`. -/
def Split (sep : Char) : GoString → List GoString
  | [] => [[]]
  | c :: cs =>
    if c = sep then [] :: Split sep cs
    else
      match Split sep cs with
      | l :: ls => (c :: l) :: ls
      | [] => [[c]]

/-- Go `strings.SplitN(s, sep, n)` for a one-byte separator and `n > 0`,
given as the number `n - 1` of cuts still allowed: at most `n` pieces, the
last one being the unsplit remainder. -/
def splitCuts (sep : Char) : Nat → GoString → List GoString
  | 0, s => [s]
  | _ + 1, [] => [[]]
  | k + 1, c :: cs =>
    if c = sep then [] :: splitCuts sep k cs
    else
      match splitCuts sep (k + 1) cs with
      | l :: ls => (c :: l) :: ls
      | [] => [[c]]

/-- Go `strings.SplitN(s, sep, n)` for a one-byte separator: `n = 0` gives no
piece, `n < 0` all pieces, `n > 0` at most `n` pieces. -/
def SplitN (s : GoString) (sep : Char) (n : Int) : List GoString :=
  if n = 0 then []
  else if n < 0 then Split sep s
  else splitCuts sep (n.toNat - 1) s

/-- Go `strings.Join(elems, sep)`. -/
def Join : List GoString → GoString → GoString
  | [], _ => []
  | [a], _ => a
  | a :: b :: rest, sep => a ++ sep ++ Join (b :: rest) sep

/-- Go `strings.Replace(s, old, new, n)` for a one-byte `old` and `n ≥ 0`:
the first `n` occurrences of `old` are replaced by `new`. -/
def Replace (s : GoString) (old : Char) (new : GoString) : Nat → GoString
  | 0 => s
  | n + 1 =>
    match s with
    | [] => []
    | c :: cs =>
      if c = old then new ++ Replace cs old new n
      else c :: Replace cs old new (n + 1)

/-- Go slice expression `s[n:]`: defined when `n ≤ len(s)`, a run-time panic
(`none`) otherwise. -/
def sliceFrom (s : GoString) (n : Nat) : Option GoString :=
  if n ≤ s.length then some (s.drop n) else none

/-! ## The definition filter -/

/-- The condition of the `if` in `parseModelfile` (line 185). -/
def keepLine (line : GoString) : Bool :=
  !HasPrefix line "#".toList && !HasPrefix line "FROM ".toList &&
    !HasPrefix line "failed to get console mode".toList

/-- The loop of `parseModelfile` (lines 184-188): `filtered` grows by
`append`. -/
def parseModelfileLoop : List GoString → List GoString → List GoString
  | [], filtered => filtered
  | line :: rest, filtered =>
    if keepLine line then parseModelfileLoop rest (filtered ++ [line])
    else parseModelfileLoop rest filtered

/-- Go `parseModelfile` (lines 181-190). -/
def parseModelfile (input : GoString) : GoString :=
  let lines := Split '\n' input
  let filtered := parseModelfileLoop lines []
  Join filtered "\n".toList

/-! ## Data model -/

/-- Go `SyncConfig` (lines 19-22). -/
structure SyncConfig where
  LocalModel : GoString
  RemoteServer : GoString
  deriving DecidableEq, Repr

/-- Go `Layer` (lines 24-27). -/
structure Layer where
  MediaType : GoString
  Digest : GoString
  deriving DecidableEq, Repr

/-- Go `Manifest` (lines 29-31). -/
structure Manifest where
  Layers : List Layer
  deriving DecidableEq, Repr

/-- The part of a Go `*url.URL` the source reads. -/
structure URL where
  Scheme : GoString
  deriving DecidableEq, Repr

/-- The part of a Go `*http.Response` the source reads. -/
structure Response where
  StatusCode : Int
  Status : GoString
  deriving DecidableEq, Repr

/-- The anonymous struct marshalled by `createModel` (lines 193-199). -/
structure ModelCreate where
  Name : GoString
  Modelfile : GoString
  deriving DecidableEq, Repr

/-- Go `http.StatusOK`. -/
def StatusOK : Int := 200

/-- Go `http.StatusCreated`. -/
def StatusCreated : Int := 201

/-- The error values of the program.  Each constructor built by the source
stands for one `fmt.Errorf` call; `foreign` is an error value produced by a
library or operating-system call. -/
inductive GoError where
  /-- Go `fmt.Errorf("invalid remote server URL: %s", url)` (line 35). -/
  | invalidRemoteURL (url : GoString)
  /-- Go `fmt.Errorf("model not found in %s", modelDir)` (line 56). -/
  | modelNotFound (modelDir : GoString)
  /-- Go `fmt.Errorf("upload failed: %s", resp.Status)` (line 164). -/
  | uploadFailed (status : GoString)
  /-- Go `fmt.Errorf("could not get ollama Modelfile: %w", err)` (line 175). -/
  | modelfileUnavailable (cause : GoError)
  /-- Go `fmt.Errorf("could not create %s on the remote server (%d): %s", ...)`
  (line 213). -/
  | createRejected (modelName : GoString) (statusCode : Int) (status : GoString)
  /-- An error returned by a library or operating-system call. -/
  | foreign (msg : GoString)
  deriving DecidableEq, Repr

/-- The body of a `POST` request. -/
inductive Body where
  /-- The bytes of the opened local file, streamed (`io.TeeReader(file, bar)`). -/
  | file (path : GoString)
  /-- A byte buffer held in memory (`bytes.NewBuffer(data)`). -/
  | bytes (data : GoString)
  deriving DecidableEq, Repr

/-- One interaction of the program with the outside world. -/
inductive Event where
  /-- Go `os.Getenv(name)`. -/
  | getenv (name : GoString)
  /-- Go `os.Stat(path)`. -/
  | stat (path : GoString)
  /-- Go `os.ReadFile(path)`. -/
  | readFile (path : GoString)
  /-- Go `fmt.Printf` / `fmt.Println` with the text written. -/
  | print (text : GoString)
  /-- Go `http.Head(url)`. -/
  | httpHead (url : GoString)
  /-- Go `os.Open(path)`. -/
  | openFile (path : GoString)
  /-- Go `file.Stat()` on the file opened from `path`. -/
  | fileStat (path : GoString)
  /-- Go `http.Post(url, contentType, body)`. -/
  | httpPost (url contentType : GoString) (body : Body)
  /-- Go `exec.Command(argv...).CombinedOutput()`. -/
  | exec (argv : List GoString)
  deriving DecidableEq, Repr

/-- The history of a run, newest event first. -/
abbrev Trace := List Event

/-- The outside world and the library functions the source calls.  A field
taking a `Trace` answers the request made after that history. -/
structure Env where
  /-- Go `runtime.GOOS`. -/
  GOOS : GoString
  /-- Go `os.PathSeparator`. -/
  PathSeparator : Char
  /-- Go `filepath.Join(elem...)`. -/
  FilepathJoin : List GoString → GoString
  /-- Go `url.Parse(rawURL)`. -/
  URLParse : GoString → Except GoError URL
  /-- Go `json.Unmarshal(data, &manifest)`. -/
  Unmarshal : GoString → Except GoError Manifest
  /-- Go `json.Marshal(modelCreate)`. -/
  Marshal : ModelCreate → Except GoError GoString
  /-- Go `os.Getenv(name)`. -/
  Getenv : Trace → GoString → GoString
  /-- Go `os.IsNotExist(err)` for the `err` of `os.Stat(path)`. -/
  StatIsNotExist : Trace → GoString → Bool
  /-- Go `os.ReadFile(path)`. -/
  ReadFile : Trace → GoString → Except GoError GoString
  /-- Go `http.Head(url)`. -/
  Head : Trace → GoString → Except GoError Response
  /-- Go `os.Open(path)`: `none` when the file was opened. -/
  Open : Trace → GoString → Option GoError
  /-- Go `file.Stat()`, giving `stat.Size()`. -/
  FileStat : Trace → GoString → Except GoError Int
  /-- Go `http.Post(url, contentType, body)`. -/
  Post : Trace → GoString → GoString → Body → Except GoError Response
  /-- Go `exec.Command(argv...).CombinedOutput()`. -/
  Exec : Trace → List GoString → Except GoError GoString

/-- How a call of `Sync` ends. -/
inductive Outcome where
  /-- The function returned this `error` value. -/
  | returned (err : Option GoError)
  /-- A run-time panic. -/
  | panicked
  deriving DecidableEq, Repr

/-! ## The program -/

/-- Go `validateURL` (lines 94-100). -/
def validateURL (E : Env) (urlStr : GoString) : Bool :=
  match E.URLParse urlStr with
  | .error _ => false
  | .ok u => u.Scheme == "http".toList || u.Scheme == "https".toList

/-- Go `getOllamaModelsDir` (lines 102-116).  Its `error` result is always
`nil`, so only the string and the trace are returned. -/
def getOllamaModelsDir (E : Env) (tr : Trace) : GoString × Trace :=
  let ollamaModels := E.Getenv tr "OLLAMA_MODELS".toList
  let tr1 := Event.getenv "OLLAMA_MODELS".toList :: tr
  if ollamaModels ≠ [] ∧ ollamaModels ≠ "*".toList then (ollamaModels, tr1)
  else if E.GOOS = "windows".toList then
    (E.FilepathJoin [E.Getenv tr1 "USERPROFILE".toList, ".ollama".toList, "models".toList],
      Event.getenv "USERPROFILE".toList :: tr1)
  else if E.GOOS = "darwin".toList then
    (E.FilepathJoin [E.Getenv tr1 "HOME".toList, ".ollama".toList, "models".toList],
      Event.getenv "HOME".toList :: tr1)
  else ("/usr/share/ollama/.ollama/models".toList, tr1)

/-- Go `modelBase` (lines 118-124). -/
def modelBase (modelName : GoString) : GoString :=
  let parts := SplitN modelName '/' 2
  if parts.length > 1 then parts.headD [] else []

/-- The value of `modelDir` when line 55 is reached (lines 44-53 of `Sync`);
the first assignment of line 44 is overwritten on every branch. -/
def manifestPath (E : Env) (baseDir localModel : GoString) : GoString :=
  let manifestFile := Replace localModel ':' [E.PathSeparator] 1
  if modelBase localModel = "hub".toList then
    E.FilepathJoin [baseDir, "manifests".toList, manifestFile]
  else if modelBase localModel = [] then
    E.FilepathJoin [baseDir, "manifests".toList, "registry.ollama.ai".toList,
      "library".toList, manifestFile]
  else
    E.FilepathJoin [baseDir, "manifests".toList, "registry.ollama.ai".toList, manifestFile]

/-- The address `fmt.Sprintf("%s/api/blobs/sha256:%s", remoteServer, hash)`
(lines 127 and 157). -/
def blobURL (remoteServer hash : GoString) : GoString :=
  remoteServer ++ "/api/blobs/sha256:".toList ++ hash

/-- The address `fmt.Sprintf("%s/api/create", remoteServer)` (line 206). -/
def createURL (remoteServer : GoString) : GoString :=
  remoteServer ++ "/api/create".toList

/-- Go `uploadLayer` (lines 126-169).  The deferred `Close` calls and the
progress bar's drawing are not recorded. -/
def uploadLayer (E : Env) (remoteServer blobDir hash : GoString) (tr : Trace) :
    Option GoError × Trace :=
  let tr1 := Event.httpHead (blobURL remoteServer hash) :: tr
  match E.Head tr (blobURL remoteServer hash) with
  | .error err => (some err, tr1)
  | .ok resp =>
    if resp.StatusCode = StatusOK then
      (none, Event.print ("Skipping upload for already created layer sha256:".toList
        ++ hash ++ "\n".toList) :: tr1)
    else
      let tr2 := Event.print ("Uploading layer sha256:".toList ++ hash ++ "\n".toList) :: tr1
      let blobFile := E.FilepathJoin [blobDir, "sha256-".toList ++ hash]
      let tr3 := Event.openFile blobFile :: tr2
      match E.Open tr2 blobFile with
      | some err => (some err, tr3)
      | none =>
        let tr4 := Event.fileStat blobFile :: tr3
        match E.FileStat tr3 blobFile with
        | .error err => (some err, tr4)
        | .ok _ =>
          let tr5 := Event.httpPost (blobURL remoteServer hash)
            "application/octet-stream".toList (Body.file blobFile) :: tr4
          match E.Post tr4 (blobURL remoteServer hash) "application/octet-stream".toList
              (Body.file blobFile) with
          | .error err => (some err, tr5)
          | .ok resp2 =>
            if resp2.StatusCode ≠ StatusCreated then
              (some (GoError.uploadFailed resp2.Status), tr5)
            else
              (none, Event.print "Success uploading layer.\n".toList :: tr5)

/-- Go `getModelfile` (lines 171-179). -/
def getModelfile (E : Env) (modelName : GoString) (tr : Trace) :
    Except GoError GoString × Trace :=
  let argv := ["ollama".toList, "show".toList, modelName, "--modelfile".toList]
  match E.Exec tr argv with
  | .error err => (.error (GoError.modelfileUnavailable err), Event.exec argv :: tr)
  | .ok output => (.ok (parseModelfile output), Event.exec argv :: tr)

/-- Go `createModel` (lines 192-218). -/
def createModel (E : Env) (remoteServer modelName modelfile : GoString) (tr : Trace) :
    Option GoError × Trace :=
  let modelCreate : ModelCreate := { Name := modelName, Modelfile := modelfile }
  match E.Marshal modelCreate with
  | .error err => (some err, tr)
  | .ok data =>
    let tr1 := Event.httpPost (createURL remoteServer) "application/json".toList
      (Body.bytes data) :: tr
    match E.Post tr (createURL remoteServer) "application/json".toList (Body.bytes data) with
    | .error err => (some err, tr1)
    | .ok resp =>
      if resp.StatusCode ≠ StatusOK then
        (some (GoError.createRejected modelName resp.StatusCode resp.Status), tr1)
      else
        (none, Event.print "Model created successfully on the remote server.\n".toList :: tr1)

/-- The condition of the `if` in the layer loop of `Sync` (lines 73-75). -/
def layerQualifies (layer : Layer) : Bool :=
  HasPrefix layer.MediaType "application/vnd.ollama.image.model".toList ||
  HasPrefix layer.MediaType "application/vnd.ollama.image.projector".toList ||
  HasPrefix layer.MediaType "application/vnd.ollama.image.adapter".toList

/-- How the layer loop of `Sync` ends. -/
inductive LoopResult where
  /-- Every layer was processed; the value of `modelFrom`. -/
  | done (modelFrom : GoString)
  /-- Go `uploadLayer` returned an error, which `Sync` returns (line 78). -/
  | failed (err : GoError)
  /-- The slice expression of line 76 was out of range. -/
  | panicked
  deriving DecidableEq, Repr

/-- The layer loop of `Sync` (lines 72-82), started with the current value of
`modelFrom`. -/
def syncLayers (E : Env) (remoteServer blobDir : GoString) :
    List Layer → GoString → Trace → LoopResult × Trace
  | [], modelFrom, tr => (.done modelFrom, tr)
  | layer :: rest, modelFrom, tr =>
    if layerQualifies layer then
      match sliceFrom layer.Digest 7 with
      | none => (.panicked, tr)
      | some hash =>
        match uploadLayer E remoteServer blobDir hash tr with
        | (some err, tr1) => (.failed err, tr1)
        | (none, tr1) =>
          syncLayers E remoteServer blobDir rest
            (modelFrom ++ ("FROM @sha256:".toList ++ hash ++ "\n".toList)) tr1
    else syncLayers E remoteServer blobDir rest modelFrom tr

/-- Lines 34-69 of `Sync`: validation of the address, location and parsing of
the manifest.  On success the values of `blobDir` and `manifest`. -/
def syncLoad (E : Env) (config : SyncConfig) (tr : Trace) :
    Except GoError (GoString × Manifest) × Trace :=
  if !validateURL E config.RemoteServer then
    (.error (GoError.invalidRemoteURL config.RemoteServer), tr)
  else
    match getOllamaModelsDir E tr with
    | (baseDir, tr1) =>
      let blobDir := E.FilepathJoin [baseDir, "blobs".toList]
      let modelDir := manifestPath E baseDir config.LocalModel
      let tr2 := Event.stat modelDir :: tr1
      if E.StatIsNotExist tr1 modelDir then
        (.error (GoError.modelNotFound modelDir), tr2)
      else
        let tr3 := Event.readFile modelDir :: tr2
        match E.ReadFile tr2 modelDir with
        | .error err => (.error err, tr3)
        | .ok manifestData =>
          match E.Unmarshal manifestData with
          | .error err => (.error err, tr3)
          | .ok manifest =>
            (.ok (blobDir, manifest),
              Event.print ("Copying model ".toList ++ config.LocalModel ++ " to ".toList ++
                config.RemoteServer ++ "...\n".toList) :: tr3)

/-- Go `Sync` (lines 33-92). -/
def Sync (E : Env) (config : SyncConfig) (tr : Trace) : Outcome × Trace :=
  match syncLoad E config tr with
  | (.error err, tr1) => (.returned (some err), tr1)
  | (.ok (blobDir, manifest), tr1) =>
    match syncLayers E config.RemoteServer blobDir manifest.Layers [] tr1 with
    | (.panicked, tr2) => (.panicked, tr2)
    | (.failed err, tr2) => (.returned (some err), tr2)
    | (.done modelFrom, tr2) =>
      match getModelfile E config.LocalModel tr2 with
      | (.error err, tr3) => (.returned (some err), tr3)
      | (.ok modelfile, tr3) =>
        match createModel E config.RemoteServer config.LocalModel (modelFrom ++ modelfile) tr3 with
        | (err, tr4) => (.returned err, tr4)

/-! ## Specification-side definitions -/

/-- A line that the specification strips: a comment (`#`), a base-layer
directive (`FROM `) or the diagnostic-noise line. -/
def strippedLine (line : GoString) : Prop :=
  "#".toList <+: line ∨ "FROM ".toList <+: line ∨
    "failed to get console mode".toList <+: line

instance (line : GoString) : Decidable (strippedLine line) := by
  unfold strippedLine; infer_instance

/-- The lines of the input that the specification keeps, in input order. -/
def keptLines (input : GoString) : List GoString :=
  (input.splitOn '\n').filter (fun line => ¬ strippedLine line)

/-- The definition filter as the specification words it: the
newline-separated lines of the input without the stripped ones, joined again
by newlines. -/
def filterDefinitionSpec (input : GoString) : GoString :=
  "\n".toList.intercalate (keptLines input)

/-- The namespace of an identifier `[namespace/]name[:tag]`: the text before
its first `/`, when it has a `/`. -/
def namespaceOf (id : GoString) : Option GoString :=
  if '/' ∈ id then some (id.takeWhile (fun c => c ≠ '/')) else none

/-- The identifier with its first `:` replaced by the path separator. -/
def firstColonReplaced (sep : Char) (id : GoString) : GoString :=
  if ':' ∈ id then
    id.takeWhile (fun c => c ≠ ':') ++ sep :: (id.dropWhile (fun c => c ≠ ':')).tail
  else id

/-- The base-layer directives as the specification words them: one line
`FROM @<digest>` for each qualifying layer, in manifest order, `<digest>`
being the digest as written in the manifest. -/
def claimedDirectives (layers : List Layer) : GoString :=
  ((layers.filter layerQualifies).map
    (fun l => "FROM @".toList ++ l.Digest ++ "\n".toList)).flatten

/-- A necessary condition for a text to be a syntactically valid HTTP/HTTPS
URL: it begins with `http://` or `https://` (in any letter case) and at least
one more byte, the start of the host, follows. -/
def hasHTTPAuthority (endpoint : GoString) : Bool :=
  (HasPrefix (endpoint.map Char.toLower) "http://".toList && decide (7 < endpoint.length)) ||
  (HasPrefix (endpoint.map Char.toLower) "https://".toList && decide (8 < endpoint.length))

/-- The `POST` requests of a history, newest first. -/
def postRequests (tr : Trace) : Trace :=
  tr.filter (fun e => match e with
    | Event.httpPost _ _ _ => true
    | _ => false)

/-! ## Closed forms of what the program builds -/

/-- The requests of one rejected or accepted upload attempt in `uploadLayer`,
newest first: probe, announcement, open, size query, upload. -/
def uploadEvents (E : Env) (remoteServer blobDir hash : GoString) : Trace :=
  [Event.httpPost (blobURL remoteServer hash) "application/octet-stream".toList
      (Body.file (E.FilepathJoin [blobDir, "sha256-".toList ++ hash])),
   Event.fileStat (E.FilepathJoin [blobDir, "sha256-".toList ++ hash]),
   Event.openFile (E.FilepathJoin [blobDir, "sha256-".toList ++ hash]),
   Event.print ("Uploading layer sha256:".toList ++ hash ++ "\n".toList),
   Event.httpHead (blobURL remoteServer hash)]

/-- The arguments of the sub-process started by `getModelfile`. -/
def showArgv (modelName : GoString) : List GoString :=
  ["ollama".toList, "show".toList, modelName, "--modelfile".toList]

/-- The value of `modelFrom` after the loop, as the code builds it. -/
def builtDirectives (layers : List Layer) : GoString :=
  ((layers.filter layerQualifies).map
    (fun l => "FROM @sha256:".toList ++ l.Digest.drop 7 ++ "\n".toList)).flatten

/-! ## Concrete environments

Test doubles for the outside world, used to run the program on concrete
inputs. -/

/-- A stand-in for `url.Parse`: it never fails and the scheme is the text
before the first `:` (empty when there is no `:`). -/
def schemeBeforeColon (rawURL : GoString) : Except GoError URL :=
  match SplitN rawURL ':' 2 with
  | [scheme, _] => .ok { Scheme := scheme }
  | _ => .ok { Scheme := [] }

/-- The media type of a model-weights layer. -/
def mediaModel : GoString := "application/vnd.ollama.image.model".toList

/-- The media type of a projector layer. -/
def mediaProjector : GoString := "application/vnd.ollama.image.projector".toList

/-- The media type of a licence layer (not transferred). -/
def mediaLicense : GoString := "application/vnd.ollama.image.license".toList

/-- A Linux machine whose store holds one manifest with the given layers and
every blob file, whose `ollama show` prints a three-line definition, and a
remote that answers the existence probe of an address with `probe` (status
code and status text), every blob upload with 201 and the creation request
with 200. -/
def testEnv (layers : List Layer) (probe : GoString → Response) : Env where
  GOOS := "linux".toList
  PathSeparator := '/'
  FilepathJoin := fun elems => Join elems "/".toList
  URLParse := schemeBeforeColon
  Unmarshal := fun _ => .ok { Layers := layers }
  Marshal := fun mc => .ok ("name=".toList ++ mc.Name ++ "&modelfile=".toList ++ mc.Modelfile)
  Getenv := fun _ _ => []
  StatIsNotExist := fun _ _ => false
  ReadFile := fun _ _ => .ok []
  Head := fun _ url => .ok (probe url)
  Open := fun _ _ => none
  FileStat := fun _ _ => .ok 3
  Post := fun _ _ contentType _ =>
    if contentType = "application/json".toList then
      .ok { StatusCode := 200, Status := "200 OK".toList }
    else .ok { StatusCode := 201, Status := "201 Created".toList }
  Exec := fun _ _ => .ok "# Modelfile\nFROM /local/blob\nTEMPLATE x".toList

/-- The manifest of the end-to-end scenario of the specification. -/
def scenarioLayers : List Layer :=
  [{ MediaType := mediaModel, Digest := "sha256:aaa".toList },
   { MediaType := mediaProjector, Digest := "sha256:bbb".toList },
   { MediaType := mediaLicense, Digest := "sha256:ccc".toList }]

/-- The remote of the end-to-end scenario: `bbb` is present, everything else
is absent. -/
def scenarioProbe (url : GoString) : Response :=
  if url = "http://remote:11434/api/blobs/sha256:bbb".toList then
    { StatusCode := 200, Status := "200 OK".toList }
  else { StatusCode := 404, Status := "404 Not Found".toList }

/-- The environment of the end-to-end scenario. -/
def scenarioEnv : Env := testEnv scenarioLayers scenarioProbe

/-- The configuration of the end-to-end scenario. -/
def scenarioConfig : SyncConfig :=
  { LocalModel := "llama:7b".toList, RemoteServer := "http://remote:11434".toList }

/-- A configuration whose endpoint is a scheme with nothing after it. -/
def hostlessConfig : SyncConfig :=
  { LocalModel := "llama:7b".toList, RemoteServer := "http:".toList }

/-- The end-to-end scenario on a machine whose HTTP client refuses an address
without a host, as Go's client does. -/
def hostlessEnv : Env :=
  { scenarioEnv with
    Head := fun _ _ => .error (GoError.foreign "http: no Host in request URL".toList) }

/-- A remote that answers every existence probe with 500. -/
def probe500 (_ : GoString) : Response :=
  { StatusCode := 500, Status := "500 Internal Server Error".toList }

/-- A manifest with one model-weights layer. -/
def oneLayer : List Layer :=
  [{ MediaType := mediaModel, Digest := "sha256:aaa".toList }]

/-- The manifest of the rejection scenario: a projector that the remote has,
then the weights that it lacks, then a licence. -/
def rejectionLayers : List Layer :=
  [{ MediaType := mediaProjector, Digest := "sha256:bbb".toList },
   { MediaType := mediaModel, Digest := "sha256:aaa".toList },
   { MediaType := mediaLicense, Digest := "sha256:ccc".toList }]

/-- The rejection scenario: the end-to-end scenario with the layers in another
order and a remote that answers every `POST` with 503. -/
def rejectingEnv : Env :=
  { testEnv rejectionLayers scenarioProbe with
    Post := fun _ _ _ _ =>
      .ok { StatusCode := 503, Status := "503 Service Unavailable".toList } }

/-- A manifest whose model-weights layer has a digest of another algorithm. -/
def sha512Layers : List Layer :=
  [{ MediaType := mediaModel, Digest := "sha512:abc".toList }]

/-- A remote that holds exactly the blob `sha512:abc`. -/
def sha512Probe (url : GoString) : Response :=
  if url = "http://remote:11434/api/blobs/sha512:abc".toList then
    { StatusCode := 200, Status := "200 OK".toList }
  else { StatusCode := 404, Status := "404 Not Found".toList }

/-- A remote that holds every blob. -/
def presentProbe (_ : GoString) : Response :=
  { StatusCode := 200, Status := "200 OK".toList }

/-! ## Lemmas on the string functions -/

theorem HasPrefix_iff (s pre : GoString) : HasPrefix s pre = true ↔ pre <+: s := by
  unfold HasPrefix
  rw [List.prefix_iff_eq_take]
  constructor
  · intro h
    simp only [Bool.and_eq_true, decide_eq_true_eq, beq_iff_eq] at h
    exact h.2.symm
  · intro h
    simp only [Bool.and_eq_true, decide_eq_true_eq, beq_iff_eq]
    refine ⟨?_, h.symm⟩
    have := congrArg List.length h
    simp only [List.length_take] at this
    omega

theorem HasPrefix_eq_false_iff (s pre : GoString) :
    HasPrefix s pre = false ↔ ¬ pre <+: s := by
  rw [← HasPrefix_iff, Bool.not_eq_true]

theorem keepLine_iff (line : GoString) : keepLine line = true ↔ ¬ strippedLine line := by
  unfold keepLine strippedLine
  simp only [Bool.and_eq_true, Bool.not_eq_true', HasPrefix_eq_false_iff]
  tauto

theorem Split_ne_nil (sep : Char) (s : GoString) : Split sep s ≠ [] := by
  cases s with
  | nil => simp [Split]
  | cons c cs =>
    unfold Split
    split
    · simp
    · split <;> simp

theorem Split_eq_splitOn (sep : Char) (s : GoString) : Split sep s = s.splitOn sep := by
  induction s with
  | nil => rfl
  | cons c cs ih =>
    unfold Split
    rw [List.splitOn, List.splitOnP_cons]
    rw [List.splitOn] at ih
    by_cases h : c = sep
    · simp [h, ih]
    · have h2 : (c == sep) = false := by simpa using h
      simp only [h, if_false, h2]
      rw [ih]
      cases hs : List.splitOnP (fun x => x == sep) cs with
      | nil => exact absurd hs (List.splitOnP_ne_nil _ _)
      | cons l ls => simp [List.modifyHead]

theorem Join_eq_intercalate (ls : List GoString) (sep : GoString) :
    Join ls sep = sep.intercalate ls := by
  induction ls with
  | nil => simp [Join, List.intercalate]
  | cons a rest ih =>
    cases rest with
    | nil => simp [Join, List.intercalate]
    | cons b rest2 =>
      rw [Join, ih]
      simp [List.intercalate, List.intersperse]

theorem Split_not_mem (sep : Char) (s : GoString) : ∀ l ∈ Split sep s, sep ∉ l := by
  induction s with
  | nil => simp [Split]
  | cons c cs ih =>
    unfold Split
    by_cases h : c = sep
    · simp only [h, if_true]
      intro l hl
      rcases List.mem_cons.mp hl with rfl | hl
      · simp
      · exact ih l hl
    · simp only [h, if_false]
      cases hs : Split sep cs with
      | nil => exact absurd hs (Split_ne_nil _ _)
      | cons l0 ls =>
        rw [hs] at ih
        intro l hl
        rcases List.mem_cons.mp hl with rfl | hl
        · intro hmem
          rcases List.mem_cons.mp hmem with heq | hmem
          · exact h heq.symm
          · exact ih l0 (List.mem_cons_self _ _) hmem
        · exact ih l (List.mem_cons_of_mem _ hl)

theorem Split_Join (sep : Char) (ls : List GoString) (hne : ls ≠ [])
    (hsep : ∀ l ∈ ls, sep ∉ l) : Split sep (Join ls [sep]) = ls := by
  rw [Split_eq_splitOn, Join_eq_intercalate]
  exact List.splitOn_intercalate ls sep hsep hne

theorem parseModelfileLoop_eq (lines filtered : List GoString) :
    parseModelfileLoop lines filtered = filtered ++ lines.filter keepLine := by
  induction lines generalizing filtered with
  | nil => simp [parseModelfileLoop]
  | cons line rest ih =>
    unfold parseModelfileLoop
    by_cases h : keepLine line = true
    · simp [h, ih]
    · simp [h, ih]

theorem filter_keepLine_eq (input : GoString) :
    (Split '\n' input).filter keepLine = keptLines input := by
  unfold keptLines
  rw [Split_eq_splitOn]
  apply List.filter_congr
  intro line _
  by_cases h : strippedLine line
  · have : keepLine line = false := by
      rw [← Bool.not_eq_true, keepLine_iff]; exact not_not.mpr h
    simp [this, h]
  · have : keepLine line = true := (keepLine_iff line).mpr h
    simp [this, h]

theorem parseModelfile_eq (input : GoString) :
    parseModelfile input = Join (keptLines input) "\n".toList := by
  unfold parseModelfile
  simp only [parseModelfileLoop_eq, List.nil_append, filter_keepLine_eq]

theorem keptLines_no_newline (input : GoString) : ∀ l ∈ keptLines input, '\n' ∉ l := by
  intro l hl
  rw [← filter_keepLine_eq] at hl
  exact Split_not_mem '\n' input l (List.mem_of_mem_filter hl)

theorem lines_parseModelfile (input : GoString) (h : keptLines input ≠ []) :
    Split '\n' (parseModelfile input) = keptLines input := by
  rw [parseModelfile_eq]
  exact Split_Join '\n' (keptLines input) h (keptLines_no_newline input)

/-! ## The definition filter: theorems -/

/-- C2: for every definition text, no line of the output of `parseModelfile`
is a comment line (starting with `#`) or a base-layer directive line (starting
with `FROM `), and every input line that is one of the two is absent from the
output lines, wherever it stood in the input. -/
theorem parseModelfile_no_comment_no_base (input : GoString) :
    (∀ line ∈ Split '\n' (parseModelfile input),
      ¬ "#".toList <+: line ∧ ¬ "FROM ".toList <+: line) ∧
    (∀ line ∈ Split '\n' input, ("#".toList <+: line ∨ "FROM ".toList <+: line) →
      line ∉ Split '\n' (parseModelfile input)) := by
  have key : ∀ line ∈ Split '\n' (parseModelfile input),
      ¬ "#".toList <+: line ∧ ¬ "FROM ".toList <+: line := by
    intro line hline
    by_cases hk : keptLines input = []
    · rw [parseModelfile_eq, hk] at hline
      have hnil : line = [] := by simpa [Join, Split] using hline
      subst hnil
      constructor <;> decide
    · rw [lines_parseModelfile input hk] at hline
      have hns : ¬ strippedLine line := by
        have := List.of_mem_filter hline
        simpa using this
      unfold strippedLine at hns
      tauto
  refine ⟨key, ?_⟩
  intro line _ hbad hmem
  have := key line hmem
  tauto

/-- A run of C2 on a text with a comment first, a base directive in the
middle and a comment last. -/
theorem parseModelfile_no_comment_no_base_witness :
    "PARAMETER a".toList ∈
        Split '\n' (parseModelfile "# c\nFROM /x\nPARAMETER a\n#d".toList) ∧
      (¬ "#".toList <+: "PARAMETER a".toList ∧ ¬ "FROM ".toList <+: "PARAMETER a".toList) ∧
      "FROM /x".toList ∈ Split '\n' "# c\nFROM /x\nPARAMETER a\n#d".toList ∧
      "FROM /x".toList ∉
        Split '\n' (parseModelfile "# c\nFROM /x\nPARAMETER a\n#d".toList) :=
  ⟨by decide,
   (parseModelfile_no_comment_no_base "# c\nFROM /x\nPARAMETER a\n#d".toList).1
     "PARAMETER a".toList (by decide),
   by decide,
   (parseModelfile_no_comment_no_base "# c\nFROM /x\nPARAMETER a\n#d".toList).2
     "FROM /x".toList (by decide) (Or.inr (by decide))⟩

/-- C9: `parseModelfile` computes the filter of the specification: its output
is the newline-separated lines of the input without those starting with `#`,
`FROM ` or `failed to get console mode`, joined by newlines.  The kept lines
are a subsequence of the input lines (same relative order), every line that is
not stripped occurs as often as in the input, no stripped line is kept, the
output lines are exactly the kept lines when there is one, and the output is
the empty string when every line is removed. -/
theorem parseModelfile_refines_spec (input : GoString) :
    parseModelfile input = filterDefinitionSpec input ∧
    (keptLines input).Sublist (input.splitOn '\n') ∧
    (∀ line, ¬ strippedLine line →
      (keptLines input).count line = (input.splitOn '\n').count line) ∧
    (∀ line, strippedLine line → line ∉ keptLines input) ∧
    (keptLines input ≠ [] → Split '\n' (parseModelfile input) = keptLines input) ∧
    (keptLines input = [] → parseModelfile input = []) := by
  refine ⟨?_, ?_, ?_, ?_, ?_, ?_⟩
  · rw [parseModelfile_eq, Join_eq_intercalate]; rfl
  · exact List.filter_sublist _
  · intro line hline
    unfold keptLines
    apply List.count_filter
    simpa using hline
  · intro line hline hmem
    have := List.of_mem_filter hmem
    simp at this
    exact this hline
  · exact lines_parseModelfile input
  · intro h
    rw [parseModelfile_eq, h]; rfl

/-- A run of C9 on a text with an empty line, a repeated line and a line that
contains `#` and `FROM ` after its first character. -/
theorem parseModelfile_refines_spec_witness :
    parseModelfile "FROM /x\nA\n\n x # FROM y\nA\n#c".toList = "A\n\n x # FROM y\nA".toList ∧
    keptLines "FROM /x\nA\n\n x # FROM y\nA\n#c".toList ≠ [] ∧
    Split '\n' (parseModelfile "FROM /x\nA\n\n x # FROM y\nA\n#c".toList) =
      keptLines "FROM /x\nA\n\n x # FROM y\nA\n#c".toList ∧
    keptLines "#a\nFROM b".toList = [] ∧
    parseModelfile "#a\nFROM b".toList = [] :=
  ⟨by decide, by decide,
   (parseModelfile_refines_spec "FROM /x\nA\n\n x # FROM y\nA\n#c".toList).2.2.2.2.1 (by decide),
   by decide,
   (parseModelfile_refines_spec "#a\nFROM b".toList).2.2.2.2.2 (by decide)⟩

/-! ## Endpoint validation and manifest location -/

theorem splitCuts_one (sep : Char) (s : GoString) :
    splitCuts sep 1 s =
      if sep ∈ s then
        [s.takeWhile (fun c => c ≠ sep), (s.dropWhile (fun c => c ≠ sep)).tail]
      else [s] := by
  induction s with
  | nil => simp [splitCuts]
  | cons c cs ih =>
    unfold splitCuts
    by_cases h : c = sep
    · subst h
      simp [splitCuts, List.takeWhile, List.dropWhile]
    · have h2 : ¬ sep = c := fun e => h e.symm
      simp only [h, if_false, ih, List.mem_cons, h2, false_or]
      by_cases hm : sep ∈ cs
      · simp [hm, List.takeWhile, List.dropWhile, h]
      · simp [hm]

theorem modelBase_eq (modelName : GoString) :
    modelBase modelName = (namespaceOf modelName).getD [] := by
  unfold modelBase namespaceOf SplitN
  simp only [show (2 : Int) ≠ 0 by decide, if_false, show ¬ (2 : Int) < 0 by decide,
    show (2 : Int).toNat - 1 = 1 by decide, splitCuts_one]
  by_cases hm : '/' ∈ modelName
  · simp [hm]
  · simp [hm]

theorem Replace_zero (s : GoString) (old : Char) (new : GoString) :
    Replace s old new 0 = s := by
  unfold Replace; rfl

theorem Replace_one (s : GoString) (sep : Char) :
    Replace s ':' [sep] 1 = firstColonReplaced sep s := by
  induction s with
  | nil => simp [Replace, firstColonReplaced]
  | cons c cs ih =>
    unfold Replace
    by_cases h : c = ':'
    · subst h
      simp [Replace_zero, firstColonReplaced, List.takeWhile, List.dropWhile]
    · have h2 : ¬ ':' = c := fun e => h e.symm
      simp only [h, if_false, ih]
      unfold firstColonReplaced
      by_cases hm : ':' ∈ cs
      · simp [hm, List.takeWhile, List.dropWhile, h]
      · simp [hm, h2]

theorem uploadLayer_suffix (E : Env) (remoteServer blobDir hash : GoString) (tr : Trace) :
    tr <:+ (uploadLayer E remoteServer blobDir hash tr).2 := by
  unfold uploadLayer
  simp only
  split
  · exact ⟨[_], rfl⟩
  · split
    · exact ⟨[_, _], rfl⟩
    · split
      · exact ⟨[_, _, _], rfl⟩
      · split
        · exact ⟨[_, _, _, _], rfl⟩
        · split
          · exact ⟨[_, _, _, _, _], rfl⟩
          · split
            · exact ⟨[_, _, _, _, _], rfl⟩
            · exact ⟨[_, _, _, _, _, _], rfl⟩

theorem syncLayers_suffix (E : Env) (remoteServer blobDir : GoString) (layers : List Layer)
    (modelFrom : GoString) (tr : Trace) :
    tr <:+ (syncLayers E remoteServer blobDir layers modelFrom tr).2 := by
  induction layers generalizing modelFrom tr with
  | nil => exact List.suffix_refl tr
  | cons layer rest ih =>
    unfold syncLayers
    split
    · split
      · exact List.suffix_refl tr
      · rename_i hash _
        have hu := uploadLayer_suffix E remoteServer blobDir hash tr
        generalize uploadLayer E remoteServer blobDir hash tr = u at hu
        obtain ⟨r, tr1⟩ := u
        cases r with
        | some err => exact hu
        | none => exact hu.trans (ih _ tr1)
    · exact ih modelFrom tr

theorem getModelfile_suffix (E : Env) (modelName : GoString) (tr : Trace) :
    tr <:+ (getModelfile E modelName tr).2 := by
  unfold getModelfile
  simp only
  split
  · exact ⟨[_], rfl⟩
  · exact ⟨[_], rfl⟩

theorem createModel_suffix (E : Env) (remoteServer modelName modelfile : GoString)
    (tr : Trace) : tr <:+ (createModel E remoteServer modelName modelfile tr).2 := by
  unfold createModel
  simp only
  split
  · exact List.suffix_refl tr
  · split
    · exact ⟨[_], rfl⟩
    · split
      · exact ⟨[_], rfl⟩
      · exact ⟨[_, _], rfl⟩

theorem getOllamaModelsDir_suffix (E : Env) (tr : Trace) :
    (Event.getenv "OLLAMA_MODELS".toList :: tr) <:+ (getOllamaModelsDir E tr).2 := by
  unfold getOllamaModelsDir
  simp only
  split
  · exact List.suffix_refl _
  · split
    · exact ⟨[_], rfl⟩
    · split
      · exact ⟨[_], rfl⟩
      · exact List.suffix_refl _

theorem syncLoad_suffix (E : Env) (config : SyncConfig) (tr : Trace)
    (hv : validateURL E config.RemoteServer = true) :
    (Event.getenv "OLLAMA_MODELS".toList :: tr) <:+ (syncLoad E config tr).2 := by
  have hg := getOllamaModelsDir_suffix E tr
  unfold syncLoad
  simp only [hv, Bool.not_true, Bool.false_eq_true, if_false]
  generalize getOllamaModelsDir E tr = g at hg
  obtain ⟨baseDir, tr0⟩ := g
  simp only at hg ⊢
  split
  · exact hg.trans ⟨[_], rfl⟩
  · split
    · exact hg.trans ⟨[_, _], rfl⟩
    · split
      · exact hg.trans ⟨[_, _], rfl⟩
      · exact hg.trans ⟨[_, _, _], rfl⟩

theorem Sync_suffix (E : Env) (config : SyncConfig) (tr : Trace)
    (hv : validateURL E config.RemoteServer = true) :
    (Event.getenv "OLLAMA_MODELS".toList :: tr) <:+ (Sync E config tr).2 := by
  have hl := syncLoad_suffix E config tr hv
  unfold Sync
  generalize syncLoad E config tr = r at hl
  obtain ⟨res, tr1⟩ := r
  cases res with
  | error err => exact hl
  | ok v =>
    obtain ⟨blobDir, manifest⟩ := v
    simp only at hl ⊢
    have h2 := syncLayers_suffix E config.RemoteServer blobDir manifest.Layers [] tr1
    generalize syncLayers E config.RemoteServer blobDir manifest.Layers [] tr1 = r2 at h2
    obtain ⟨lr, tr2⟩ := r2
    cases lr with
    | panicked => exact hl.trans h2
    | failed err => exact hl.trans h2
    | done modelFrom =>
      simp only at h2 ⊢
      have h3 := getModelfile_suffix E config.LocalModel tr2
      generalize getModelfile E config.LocalModel tr2 = r3 at h3
      obtain ⟨mr, tr3⟩ := r3
      cases mr with
      | error err => exact (hl.trans h2).trans h3
      | ok modelfile =>
        simp only at h3 ⊢
        exact ((hl.trans h2).trans h3).trans
          (createModel_suffix E config.RemoteServer config.LocalModel _ tr3)

/-- C4, as stated, fails: the endpoint `http:` has no host and is not a
syntactically valid HTTP/HTTPS URL, yet it parses with the scheme `http`, so
`Sync` does not return the invalid-endpoint error: it reads the environment
and the manifest, prints, and fails only at the first network request. -/
theorem Sync_accepts_hostless_http :
    hasHTTPAuthority hostlessConfig.RemoteServer = false ∧
      validateURL hostlessEnv hostlessConfig.RemoteServer = true ∧
      Sync hostlessEnv hostlessConfig [] =
        (Outcome.returned (some (GoError.foreign "http: no Host in request URL".toList)),
          [Event.httpHead "http:/api/blobs/sha256:aaa".toList,
           Event.print "Copying model llama:7b to http:...\n".toList,
           Event.readFile
             "/usr/share/ollama/.ollama/models/manifests/registry.ollama.ai/library/llama/7b".toList,
           Event.stat
             "/usr/share/ollama/.ollama/models/manifests/registry.ollama.ai/library/llama/7b".toList,
           Event.getenv "OLLAMA_MODELS".toList]) := by
  refine ⟨?_, ?_, ?_⟩ <;> decide

/-- C4, amended: the validation looks at the parse result and the scheme only.
When the remote endpoint does not parse as a URL, or parses with a scheme that
is neither `http` nor `https` (a missing scheme included), `Sync` returns the
invalid-endpoint error carrying the endpoint and leaves the trace as it was:
no environment or file-system read, no sub-process, no network request and no
output happened before it returned.  When the endpoint parses with the scheme
`http` or `https`, whatever follows the scheme, the run is not stopped at this
step: its first action is the read of the environment variable
`OLLAMA_MODELS`. -/
theorem Sync_endpoint_validation (E : Env) (config : SyncConfig) (tr : Trace) :
    (((∃ err, E.URLParse config.RemoteServer = .error err) ∨
        (∃ u, E.URLParse config.RemoteServer = .ok u ∧
          u.Scheme ≠ "http".toList ∧ u.Scheme ≠ "https".toList)) →
      Sync E config tr =
        (Outcome.returned (some (GoError.invalidRemoteURL config.RemoteServer)), tr)) ∧
    (∀ u, E.URLParse config.RemoteServer = .ok u →
      (u.Scheme = "http".toList ∨ u.Scheme = "https".toList) →
      ∃ later, (Sync E config tr).2 = later ++ Event.getenv "OLLAMA_MODELS".toList :: tr) := by
  constructor
  · intro h
    have hv : validateURL E config.RemoteServer = false := by
      unfold validateURL
      rcases h with ⟨err, he⟩ | ⟨u, hu, h1, h2⟩
      · rw [he]
      · rw [hu]
        show (u.Scheme == _ || u.Scheme == _) = false
        rw [Bool.or_eq_false_iff]
        exact ⟨beq_false_of_ne h1, beq_false_of_ne h2⟩
    unfold Sync syncLoad
    simp [hv]
  · intro u hu hs
    have hv : validateURL E config.RemoteServer = true := by
      unfold validateURL
      rw [hu]
      show (u.Scheme == _ || u.Scheme == _) = true
      rw [Bool.or_eq_true]
      rcases hs with h1 | h2
      · exact Or.inl (beq_iff_eq.mpr h1)
      · exact Or.inr (beq_iff_eq.mpr h2)
    obtain ⟨later, hlater⟩ := Sync_suffix E config tr hv
    exact ⟨later, hlater.symm⟩

/-- C4 (amended) on an endpoint with the scheme `ftp`, on one without a
scheme, and on the host-less `http:`. -/
theorem Sync_endpoint_validation_witness :
    Sync scenarioEnv { LocalModel := "llama:7b".toList, RemoteServer := "ftp://remote".toList } [] =
        (Outcome.returned (some (GoError.invalidRemoteURL "ftp://remote".toList)), []) ∧
      Sync scenarioEnv { LocalModel := "llama:7b".toList, RemoteServer := "remote".toList } [] =
        (Outcome.returned (some (GoError.invalidRemoteURL "remote".toList)), []) ∧
      ∃ later, (Sync hostlessEnv hostlessConfig []).2 =
        later ++ Event.getenv "OLLAMA_MODELS".toList :: [] :=
  ⟨(Sync_endpoint_validation scenarioEnv
      { LocalModel := "llama:7b".toList, RemoteServer := "ftp://remote".toList } []).1
      (Or.inr ⟨{ Scheme := "ftp".toList }, rfl, by decide, by decide⟩),
   (Sync_endpoint_validation scenarioEnv
      { LocalModel := "llama:7b".toList, RemoteServer := "remote".toList } []).1
      (Or.inr ⟨{ Scheme := [] }, rfl, by decide, by decide⟩),
   (Sync_endpoint_validation hostlessEnv hostlessConfig []).2
      { Scheme := "http".toList } rfl (Or.inl rfl)⟩

/-- C5: the manifest path is decided by a three-way table on the namespace of
the identifier (the text before its first `/`, required non-empty when
present): no namespace gives `R/manifests/registry.ollama.ai/library/M`, the
namespace `hub` gives `R/manifests/M`, any other namespace gives
`R/manifests/registry.ollama.ai/M`, where `M` is the identifier with its first
`:` replaced by the path separator and the path is the `filepath.Join` of the
elements.  The table is a function of the identifier, so exactly one row
applies, and a run of `Sync` that loads a manifest reads it from that path
under the store root. -/
theorem manifestPath_table (E : Env) (R id : GoString)
    (hns : namespaceOf id ≠ some []) :
    manifestPath E R id =
      (match namespaceOf id with
       | none =>
         E.FilepathJoin [R, "manifests".toList, "registry.ollama.ai".toList, "library".toList,
           firstColonReplaced E.PathSeparator id]
       | some ns =>
         if ns = "hub".toList then
           E.FilepathJoin [R, "manifests".toList, firstColonReplaced E.PathSeparator id]
         else
           E.FilepathJoin [R, "manifests".toList, "registry.ollama.ai".toList,
             firstColonReplaced E.PathSeparator id]) ∧
    (∀ (config : SyncConfig) (tr tr1 : Trace) (blobDir : GoString) (manifest : Manifest),
      config.LocalModel = id → (getOllamaModelsDir E tr).1 = R →
      syncLoad E config tr = (.ok (blobDir, manifest), tr1) →
      Event.readFile (manifestPath E R id) ∈ tr1) := by
  constructor
  · unfold manifestPath
    simp only [modelBase_eq, Replace_one]
    cases hn : namespaceOf id with
    | none => simp
    | some ns =>
      have hne : ns ≠ [] := by
        intro e; apply hns; rw [hn, e]
      by_cases hh : ns = "hub".toList
      · simp [hh]
      · simp [hh, hne]
  · intro config tr tr1 blobDir manifest hid hR hload
    unfold syncLoad at hload
    split at hload
    · simp at hload
    · rw [← hR, ← hid]
      generalize getOllamaModelsDir E tr = g at hload ⊢
      obtain ⟨baseDir, tr0⟩ := g
      simp only at hload ⊢
      split at hload
      · simp at hload
      · split at hload
        · simp at hload
        · split at hload
          · simp at hload
          · simp only [Prod.mk.injEq, Except.ok.injEq] at hload
            rw [← hload.2]
            simp

/-- C5 on the three rows of the table, on a Linux machine with the store
root `/r`. -/
theorem manifestPath_table_witness :
    manifestPath scenarioEnv "/r".toList "llama:7b".toList =
        "/r/manifests/registry.ollama.ai/library/llama/7b".toList ∧
      manifestPath scenarioEnv "/r".toList "hub/me/llama:7b".toList =
        "/r/manifests/hub/me/llama/7b".toList ∧
      manifestPath scenarioEnv "/r".toList "me/llama:7b".toList =
        "/r/manifests/registry.ollama.ai/me/llama/7b".toList ∧
      Event.readFile
          (manifestPath scenarioEnv "/usr/share/ollama/.ollama/models".toList "llama:7b".toList) ∈
        (syncLoad scenarioEnv scenarioConfig []).2 :=
  ⟨(manifestPath_table scenarioEnv "/r".toList "llama:7b".toList (by decide)).1.trans
      (by decide),
   (manifestPath_table scenarioEnv "/r".toList "hub/me/llama:7b".toList (by decide)).1.trans
      (by decide),
   (manifestPath_table scenarioEnv "/r".toList "me/llama:7b".toList (by decide)).1.trans
      (by decide),
   (manifestPath_table scenarioEnv "/usr/share/ollama/.ollama/models".toList
      "llama:7b".toList (by decide)).2 scenarioConfig [] _ _ _ rfl rfl rfl⟩

/-! ## Existence probe and blob upload -/

/-- C6, as stated, fails: when the existence probe is answered with 500 the
check does not fail.  `uploadLayer` goes on to open the blob and issues the
upload request, and the run of `Sync` ends in success. -/
theorem uploadLayer_probe_500_uploads :
    uploadLayer (testEnv oneLayer probe500) "http://remote:11434".toList
        "/store/blobs".toList "aaa".toList [] =
      (none,
        [Event.print "Success uploading layer.\n".toList,
         Event.httpPost "http://remote:11434/api/blobs/sha256:aaa".toList
           "application/octet-stream".toList (Body.file "/store/blobs/sha256-aaa".toList),
         Event.fileStat "/store/blobs/sha256-aaa".toList,
         Event.openFile "/store/blobs/sha256-aaa".toList,
         Event.print "Uploading layer sha256:aaa\n".toList,
         Event.httpHead "http://remote:11434/api/blobs/sha256:aaa".toList]) ∧
      (Sync (testEnv oneLayer probe500) scenarioConfig []).1 = Outcome.returned none := by
  constructor <;> decide

/-- C6, amended: a probe answered with 200 ends `uploadLayer` in success with
no request after the probe; a probe answered with any other status (404, 500,
401, ...) is taken as absence: the blob file is opened next and, when it opens
and its size is read, the upload request is issued; the check fails only when
the probe request itself fails, and then `uploadLayer` returns that error with
no request after the probe. -/
theorem uploadLayer_probe (E : Env) (remoteServer blobDir hash : GoString) (tr : Trace) :
    (∀ resp, E.Head tr (blobURL remoteServer hash) = .ok resp → resp.StatusCode = 200 →
      uploadLayer E remoteServer blobDir hash tr =
        (none,
          [Event.print ("Skipping upload for already created layer sha256:".toList ++ hash ++
              "\n".toList),
           Event.httpHead (blobURL remoteServer hash)] ++ tr)) ∧
    (∀ resp, E.Head tr (blobURL remoteServer hash) = .ok resp → resp.StatusCode ≠ 200 →
      (∃ later, (uploadLayer E remoteServer blobDir hash tr).2 =
        later ++
          [Event.openFile (E.FilepathJoin [blobDir, "sha256-".toList ++ hash]),
           Event.print ("Uploading layer sha256:".toList ++ hash ++ "\n".toList),
           Event.httpHead (blobURL remoteServer hash)] ++ tr) ∧
      (∀ size,
        E.Open (Event.print ("Uploading layer sha256:".toList ++ hash ++ "\n".toList) ::
            Event.httpHead (blobURL remoteServer hash) :: tr)
          (E.FilepathJoin [blobDir, "sha256-".toList ++ hash]) = none →
        E.FileStat (Event.openFile (E.FilepathJoin [blobDir, "sha256-".toList ++ hash]) ::
            Event.print ("Uploading layer sha256:".toList ++ hash ++ "\n".toList) ::
            Event.httpHead (blobURL remoteServer hash) :: tr)
          (E.FilepathJoin [blobDir, "sha256-".toList ++ hash]) = .ok size →
        Event.httpPost (blobURL remoteServer hash) "application/octet-stream".toList
            (Body.file (E.FilepathJoin [blobDir, "sha256-".toList ++ hash])) ∈
          (uploadLayer E remoteServer blobDir hash tr).2)) ∧
    (∀ err, E.Head tr (blobURL remoteServer hash) = .error err →
      uploadLayer E remoteServer blobDir hash tr =
        (some err, Event.httpHead (blobURL remoteServer hash) :: tr)) := by
  refine ⟨?_, ?_, ?_⟩
  · intro resp hresp hcode
    unfold uploadLayer
    simp [hresp, hcode, StatusOK]
  · intro resp hresp hcode
    constructor
    · unfold uploadLayer
      simp only [hresp, StatusOK, hcode, if_false]
      split
      · exact ⟨[], rfl⟩
      · split
        · exact ⟨[_], rfl⟩
        · split
          · exact ⟨[_, _], rfl⟩
          · split
            · exact ⟨[_, _], rfl⟩
            · exact ⟨[_, _, _], rfl⟩
    · intro size hopen hstat
      unfold uploadLayer
      simp only [hresp, StatusOK, hcode, if_false, hopen, hstat]
      split
      · simp
      · split <;> simp
  · intro err herr
    unfold uploadLayer
    simp [herr]

/-- C6 (amended) in the end-to-end scenario: the probe of `bbb` is answered
with 200, the probe of `aaa` with 404. -/
theorem uploadLayer_probe_witness :
    uploadLayer scenarioEnv "http://remote:11434".toList "/store/blobs".toList "bbb".toList [] =
        (none,
          [Event.print ("Skipping upload for already created layer sha256:".toList ++
              "bbb".toList ++ "\n".toList),
           Event.httpHead (blobURL "http://remote:11434".toList "bbb".toList)] ++ []) ∧
      Event.httpPost (blobURL "http://remote:11434".toList "aaa".toList)
          "application/octet-stream".toList
          (Body.file (scenarioEnv.FilepathJoin ["/store/blobs".toList,
            "sha256-".toList ++ "aaa".toList])) ∈
        (uploadLayer scenarioEnv "http://remote:11434".toList "/store/blobs".toList
          "aaa".toList []).2 :=
  ⟨(uploadLayer_probe scenarioEnv "http://remote:11434".toList "/store/blobs".toList
      "bbb".toList []).1 { StatusCode := 200, Status := "200 OK".toList } rfl rfl,
   ((uploadLayer_probe scenarioEnv "http://remote:11434".toList "/store/blobs".toList
      "aaa".toList []).2.1 { StatusCode := 404, Status := "404 Not Found".toList } rfl
      (by decide)).2 3 rfl rfl⟩

/-! ## The layer loop and the orchestration -/

theorem syncLayers_cons (E : Env) (remoteServer blobDir : GoString) (layer : Layer)
    (rest : List Layer) (modelFrom : GoString) (tr : Trace) :
    syncLayers E remoteServer blobDir (layer :: rest) modelFrom tr =
      if layerQualifies layer then
        match sliceFrom layer.Digest 7 with
        | none => (.panicked, tr)
        | some hash =>
          match uploadLayer E remoteServer blobDir hash tr with
          | (some err, tr1) => (.failed err, tr1)
          | (none, tr1) =>
            syncLayers E remoteServer blobDir rest
              (modelFrom ++ ("FROM @sha256:".toList ++ hash ++ "\n".toList)) tr1
      else syncLayers E remoteServer blobDir rest modelFrom tr := by
  rw [syncLayers]

theorem syncLayers_append (E : Env) (remoteServer blobDir : GoString)
    (pre rest : List Layer) (modelFrom modelFrom1 : GoString) (tr tr1 : Trace)
    (h : syncLayers E remoteServer blobDir pre modelFrom tr = (.done modelFrom1, tr1)) :
    syncLayers E remoteServer blobDir (pre ++ rest) modelFrom tr =
      syncLayers E remoteServer blobDir rest modelFrom1 tr1 := by
  induction pre generalizing modelFrom tr with
  | nil =>
    simp only [syncLayers, Prod.mk.injEq, LoopResult.done.injEq] at h
    rw [List.nil_append, h.1, h.2]
  | cons layer pre ih =>
    rw [List.cons_append]
    rw [syncLayers_cons] at h ⊢
    by_cases hq : layerQualifies layer = true
    · simp only [hq, if_true] at h ⊢
      cases hs : sliceFrom layer.Digest 7 with
      | none => rw [hs] at h; simp at h
      | some hash =>
        rw [hs] at h
        simp only at h ⊢
        generalize uploadLayer E remoteServer blobDir hash tr = u at h ⊢
        obtain ⟨r, tr2⟩ := u
        cases r with
        | some err => simp at h
        | none => exact ih _ _ h
    · simp only [hq] at h ⊢
      exact ih _ _ h

theorem syncLayers_done (E : Env) (remoteServer blobDir : GoString)
    (layers : List Layer) (modelFrom modelFrom1 : GoString) (tr tr1 : Trace)
    (h : syncLayers E remoteServer blobDir layers modelFrom tr = (.done modelFrom1, tr1)) :
    modelFrom1 = modelFrom ++ builtDirectives layers := by
  induction layers generalizing modelFrom tr with
  | nil =>
    simp only [syncLayers, Prod.mk.injEq, LoopResult.done.injEq] at h
    simp [builtDirectives, h.1]
  | cons layer rest ih =>
    rw [syncLayers_cons] at h
    by_cases hq : layerQualifies layer = true
    · simp only [hq, if_true] at h
      cases hs : sliceFrom layer.Digest 7 with
      | none => rw [hs] at h; simp at h
      | some hash =>
        rw [hs] at h
        simp only at h
        generalize uploadLayer E remoteServer blobDir hash tr = u at h
        obtain ⟨r, tr2⟩ := u
        cases r with
        | some err => simp at h
        | none =>
          have hh : hash = layer.Digest.drop 7 := by
            unfold sliceFrom at hs
            split at hs
            · exact (Option.some.inj hs).symm
            · simp at hs
          rw [ih _ _ h, hh]
          simp [builtDirectives, hq, List.filter_cons]
    · simp only [hq] at h
      rw [ih _ _ h]
      simp [builtDirectives, hq, List.filter_cons]

theorem sha256_prefix_drop (d : GoString) (h : "sha256:".toList <+: d) :
    "sha256:".toList ++ d.drop 7 = d := by
  obtain ⟨t, rfl⟩ := h
  rfl

theorem sha256_prefix_length (d : GoString) (h : "sha256:".toList <+: d) :
    7 ≤ d.length := by
  obtain ⟨t, rfl⟩ := h
  simp

theorem builtDirectives_eq_claimed (layers : List Layer)
    (h : ∀ l ∈ layers, layerQualifies l = true → "sha256:".toList <+: l.Digest) :
    builtDirectives layers = claimedDirectives layers := by
  unfold builtDirectives claimedDirectives
  congr 1
  apply List.map_congr_left
  intro l hl
  have hmem := List.mem_filter.mp hl
  have hp := h l hmem.1 hmem.2
  have e1 : "FROM @sha256:".toList = "FROM @".toList ++ "sha256:".toList := rfl
  rw [e1]
  simp only [List.append_assoc]
  rw [← List.append_assoc "sha256:".toList, sha256_prefix_drop l.Digest hp]

theorem Sync_reaches_create (E : Env) (config : SyncConfig) (tr tr1 tr2 : Trace)
    (blobDir : GoString) (manifest : Manifest) (modelFrom output : GoString)
    (hload : syncLoad E config tr = (.ok (blobDir, manifest), tr1))
    (hloop : syncLayers E config.RemoteServer blobDir manifest.Layers [] tr1 =
      (.done modelFrom, tr2))
    (hexec : E.Exec tr2 (showArgv config.LocalModel) = .ok output) :
    Sync E config tr =
      (Outcome.returned
        (createModel E config.RemoteServer config.LocalModel
          (modelFrom ++ parseModelfile output)
          (Event.exec (showArgv config.LocalModel) :: tr2)).1,
       (createModel E config.RemoteServer config.LocalModel
          (modelFrom ++ parseModelfile output)
          (Event.exec (showArgv config.LocalModel) :: tr2)).2) := by
  unfold Sync
  rw [hload]
  simp only [hloop]
  unfold getModelfile
  unfold showArgv at hexec
  simp only [hexec]
  rfl

theorem syncLoad_postRequests (E : Env) (config : SyncConfig) (tr tr1 : Trace)
    (blobDir : GoString) (manifest : Manifest)
    (hload : syncLoad E config tr = (.ok (blobDir, manifest), tr1)) :
    postRequests tr1 = postRequests tr := by
  have hg : postRequests (getOllamaModelsDir E tr).2 = postRequests tr := by
    unfold getOllamaModelsDir
    simp only
    split
    · simp [postRequests, List.filter_cons]
    · split
      · simp [postRequests, List.filter_cons]
      · split <;> simp [postRequests, List.filter_cons]
  unfold syncLoad at hload
  split at hload
  · simp at hload
  · generalize getOllamaModelsDir E tr = g at hload hg
    obtain ⟨baseDir, tr0⟩ := g
    simp only at hload hg
    split at hload
    · simp at hload
    · split at hload
      · simp at hload
      · split at hload
        · simp at hload
        · simp only [Prod.mk.injEq, Except.ok.injEq] at hload
          rw [← hload.2, ← hg]
          simp [postRequests, List.filter_cons]

theorem syncLayers_all_present (E : Env) (remoteServer blobDir : GoString)
    (layers : List Layer) (modelFrom : GoString) (tr : Trace)
    (hdig : ∀ l ∈ layers, layerQualifies l = true → 7 ≤ l.Digest.length)
    (hhead : ∀ h, ∀ l ∈ layers, layerQualifies l = true →
      ∃ resp, E.Head h (blobURL remoteServer (l.Digest.drop 7)) = .ok resp ∧
        resp.StatusCode = 200) :
    ∃ modelFrom1 tr1,
      syncLayers E remoteServer blobDir layers modelFrom tr = (.done modelFrom1, tr1) ∧
      postRequests tr1 = postRequests tr := by
  induction layers generalizing modelFrom tr with
  | nil => exact ⟨modelFrom, tr, rfl, rfl⟩
  | cons layer rest ih =>
    have hdig2 : ∀ l ∈ rest, layerQualifies l = true → 7 ≤ l.Digest.length :=
      fun l hl => hdig l (List.mem_cons_of_mem _ hl)
    have hhead2 : ∀ h, ∀ l ∈ rest, layerQualifies l = true →
        ∃ resp, E.Head h (blobURL remoteServer (l.Digest.drop 7)) = .ok resp ∧
          resp.StatusCode = 200 :=
      fun h l hl => hhead h l (List.mem_cons_of_mem _ hl)
    rw [syncLayers_cons]
    by_cases hq : layerQualifies layer = true
    · simp only [hq, if_true]
      have hlen := hdig layer (List.mem_cons_self _ _) hq
      obtain ⟨resp, hresp, hcode⟩ := hhead tr layer (List.mem_cons_self _ _) hq
      have hs : sliceFrom layer.Digest 7 = some (layer.Digest.drop 7) := by
        unfold sliceFrom; simp [hlen]
      have hu : uploadLayer E remoteServer blobDir (layer.Digest.drop 7) tr =
          (none,
            Event.print ("Skipping upload for already created layer sha256:".toList ++
              layer.Digest.drop 7 ++ "\n".toList) ::
            Event.httpHead (blobURL remoteServer (layer.Digest.drop 7)) :: tr) := by
        unfold uploadLayer
        simp [hresp, hcode, StatusOK]
      rw [hs]
      simp only [hu]
      obtain ⟨m1, t1, h1, h2⟩ := ih
        (modelFrom ++ ("FROM @sha256:".toList ++ layer.Digest.drop 7 ++ "\n".toList))
        (Event.print ("Skipping upload for already created layer sha256:".toList ++
              layer.Digest.drop 7 ++ "\n".toList) ::
            Event.httpHead (blobURL remoteServer (layer.Digest.drop 7)) :: tr) hdig2 hhead2
      refine ⟨m1, t1, h1, ?_⟩
      rw [h2]
      simp [postRequests, List.filter_cons]
    · simp only [hq]
      exact ih modelFrom tr hdig2 hhead2

/-! ## Upload rejection and model creation -/

/-- C7: when the run has reached a qualifying layer `L` (manifest loaded, the
layers before `L` processed without failure), `L` is absent remotely, its blob
is opened and sized, and the remote answers the upload with a status other
than 201, then `uploadLayer` returns the upload-rejected error carrying the
remote's status and `Sync` returns that same error.  The trace of the run ends
with the upload request of `L`: the history before it is kept as it was, and
no probe or upload for a later layer, no call of the definition provider and
no creation request follows. -/
theorem Sync_upload_rejected (E : Env) (config : SyncConfig) (tr tr1 tr2 : Trace)
    (blobDir : GoString) (manifest : Manifest) (pre post : List Layer) (L : Layer)
    (modelFrom hash : GoString) (probe resp : Response) (size : Int)
    (hload : syncLoad E config tr = (.ok (blobDir, manifest), tr1))
    (hlayers : manifest.Layers = pre ++ L :: post)
    (hpre : syncLayers E config.RemoteServer blobDir pre [] tr1 = (.done modelFrom, tr2))
    (hq : layerQualifies L = true)
    (hhash : sliceFrom L.Digest 7 = some hash)
    (hprobe : E.Head tr2 (blobURL config.RemoteServer hash) = .ok probe)
    (habsent : probe.StatusCode ≠ 200)
    (hopen : E.Open ((uploadEvents E config.RemoteServer blobDir hash).drop 3 ++ tr2)
      (E.FilepathJoin [blobDir, "sha256-".toList ++ hash]) = none)
    (hstat : E.FileStat ((uploadEvents E config.RemoteServer blobDir hash).drop 2 ++ tr2)
      (E.FilepathJoin [blobDir, "sha256-".toList ++ hash]) = .ok size)
    (hpost : E.Post ((uploadEvents E config.RemoteServer blobDir hash).drop 1 ++ tr2)
      (blobURL config.RemoteServer hash) "application/octet-stream".toList
      (Body.file (E.FilepathJoin [blobDir, "sha256-".toList ++ hash])) = .ok resp)
    (hrej : resp.StatusCode ≠ 201) :
    uploadLayer E config.RemoteServer blobDir hash tr2 =
        (some (GoError.uploadFailed resp.Status),
          uploadEvents E config.RemoteServer blobDir hash ++ tr2) ∧
      Sync E config tr =
        (Outcome.returned (some (GoError.uploadFailed resp.Status)),
          uploadEvents E config.RemoteServer blobDir hash ++ tr2) := by
  have hu : uploadLayer E config.RemoteServer blobDir hash tr2 =
      (some (GoError.uploadFailed resp.Status),
        uploadEvents E config.RemoteServer blobDir hash ++ tr2) := by
    simp only [uploadEvents, List.drop, List.cons_append, List.nil_append] at hopen hstat hpost
    unfold uploadLayer
    simp only [hprobe, StatusOK, habsent, if_false, hopen, hstat, hpost, StatusCreated]
    simp [hrej, uploadEvents]
  refine ⟨hu, ?_⟩
  unfold Sync
  rw [hload]
  simp only [hlayers]
  rw [syncLayers_append E config.RemoteServer blobDir pre (L :: post) [] modelFrom tr1 tr2 hpre,
    syncLayers_cons]
  simp only [hq, if_true, hhash, hu]

/-- C7 in the rejection scenario: `bbb` is skipped, the upload of `aaa` is
answered with 503. -/
theorem Sync_upload_rejected_witness :
    Sync rejectingEnv scenarioConfig [] =
      (Outcome.returned (some (GoError.uploadFailed "503 Service Unavailable".toList)),
        uploadEvents rejectingEnv scenarioConfig.RemoteServer
            "/usr/share/ollama/.ollama/models/blobs".toList "aaa".toList ++
          (syncLayers rejectingEnv scenarioConfig.RemoteServer
            "/usr/share/ollama/.ollama/models/blobs".toList
            [{ MediaType := mediaProjector, Digest := "sha256:bbb".toList }] []
            (syncLoad rejectingEnv scenarioConfig []).2).2) :=
  (Sync_upload_rejected rejectingEnv scenarioConfig []
    (syncLoad rejectingEnv scenarioConfig []).2
    (syncLayers rejectingEnv scenarioConfig.RemoteServer
      "/usr/share/ollama/.ollama/models/blobs".toList
      [{ MediaType := mediaProjector, Digest := "sha256:bbb".toList }] []
      (syncLoad rejectingEnv scenarioConfig []).2).2
    "/usr/share/ollama/.ollama/models/blobs".toList
    { Layers := rejectionLayers }
    [{ MediaType := mediaProjector, Digest := "sha256:bbb".toList }]
    [{ MediaType := mediaLicense, Digest := "sha256:ccc".toList }]
    { MediaType := mediaModel, Digest := "sha256:aaa".toList }
    "FROM @sha256:bbb\n".toList "aaa".toList
    { StatusCode := 404, Status := "404 Not Found".toList }
    { StatusCode := 503, Status := "503 Service Unavailable".toList } 3
    rfl rfl rfl rfl rfl rfl (by decide) rfl rfl rfl (by decide)).2

/-- C8: `createModel` posts the encoding of the pair (name = model identifier,
modelfile = definition text) to the creation address, and this is the only
request it makes; when a response arrives it returns success exactly when the
status is 200, and otherwise the remote-rejected error carrying the model
name, the numeric status code and the status text.  A run of `Sync` that
reaches the creation step returns the result of `createModel` unchanged. -/
theorem createModel_contract (E : Env) :
    (∀ (remoteServer modelName modelfile data : GoString) (tr : Trace),
      E.Marshal { Name := modelName, Modelfile := modelfile } = .ok data →
      postRequests (createModel E remoteServer modelName modelfile tr).2 =
          Event.httpPost (createURL remoteServer) "application/json".toList (Body.bytes data) ::
            postRequests tr ∧
        ∀ resp : Response,
          E.Post tr (createURL remoteServer) "application/json".toList (Body.bytes data) =
            .ok resp →
          (createModel E remoteServer modelName modelfile tr).1 =
              (if resp.StatusCode = 200 then none
               else some (GoError.createRejected modelName resp.StatusCode resp.Status)) ∧
            ((createModel E remoteServer modelName modelfile tr).1 = none ↔
              resp.StatusCode = 200)) ∧
    (∀ (config : SyncConfig) (tr tr1 tr2 : Trace) (blobDir : GoString) (manifest : Manifest)
        (modelFrom output : GoString),
      syncLoad E config tr = (.ok (blobDir, manifest), tr1) →
      syncLayers E config.RemoteServer blobDir manifest.Layers [] tr1 = (.done modelFrom, tr2) →
      E.Exec tr2 (showArgv config.LocalModel) = .ok output →
      (Sync E config tr).1 =
        Outcome.returned
          (createModel E config.RemoteServer config.LocalModel
            (modelFrom ++ parseModelfile output)
            (Event.exec (showArgv config.LocalModel) :: tr2)).1) := by
  constructor
  · intro remoteServer modelName modelfile data tr hm
    constructor
    · unfold createModel
      simp only [hm]
      split
      · simp [postRequests, List.filter_cons]
      · split <;> simp [postRequests, List.filter_cons]
    · intro resp hp
      have hc : (createModel E remoteServer modelName modelfile tr).1 =
          if resp.StatusCode = 200 then none
          else some (GoError.createRejected modelName resp.StatusCode resp.Status) := by
        unfold createModel
        simp only [hm, hp, StatusOK]
        by_cases h : resp.StatusCode = 200 <;> simp [h]
      rw [hc]
      by_cases h : resp.StatusCode = 200 <;> simp [h]
  · intro config tr tr1 tr2 blobDir manifest modelFrom output hload hloop hexec
    rw [Sync_reaches_create E config tr tr1 tr2 blobDir manifest modelFrom output hload hloop
      hexec]

/-- C8 on a remote that answers the creation request with 200 (the end-to-end
scenario) and on one that answers it with 503. -/
theorem createModel_contract_witness :
    (createModel scenarioEnv "http://remote:11434".toList "llama:7b".toList
        "FROM @sha256:aaa\nTEMPLATE x".toList []).1 = none ∧
      (createModel rejectingEnv "http://remote:11434".toList "llama:7b".toList
        "FROM @sha256:aaa\nTEMPLATE x".toList []).1 =
        some (GoError.createRejected "llama:7b".toList 503 "503 Service Unavailable".toList) ∧
      postRequests (createModel rejectingEnv "http://remote:11434".toList "llama:7b".toList
        "FROM @sha256:aaa\nTEMPLATE x".toList []).2 =
        [Event.httpPost "http://remote:11434/api/create".toList "application/json".toList
          (Body.bytes "name=llama:7b&modelfile=FROM @sha256:aaa\nTEMPLATE x".toList)] ∧
      (Sync scenarioEnv scenarioConfig []).1 = Outcome.returned none :=
  ⟨(((createModel_contract scenarioEnv).1 "http://remote:11434".toList "llama:7b".toList
      "FROM @sha256:aaa\nTEMPLATE x".toList
      "name=llama:7b&modelfile=FROM @sha256:aaa\nTEMPLATE x".toList [] rfl).2
      { StatusCode := 200, Status := "200 OK".toList } rfl).2.mpr rfl,
   (((createModel_contract rejectingEnv).1 "http://remote:11434".toList "llama:7b".toList
      "FROM @sha256:aaa\nTEMPLATE x".toList
      "name=llama:7b&modelfile=FROM @sha256:aaa\nTEMPLATE x".toList [] rfl).2
      { StatusCode := 503, Status := "503 Service Unavailable".toList } rfl).1,
   ((createModel_contract rejectingEnv).1 "http://remote:11434".toList "llama:7b".toList
      "FROM @sha256:aaa\nTEMPLATE x".toList
      "name=llama:7b&modelfile=FROM @sha256:aaa\nTEMPLATE x".toList [] rfl).1,
   ((createModel_contract scenarioEnv).2 scenarioConfig []
      (syncLoad scenarioEnv scenarioConfig []).2
      (syncLayers scenarioEnv scenarioConfig.RemoteServer
        "/usr/share/ollama/.ollama/models/blobs".toList scenarioLayers []
        (syncLoad scenarioEnv scenarioConfig []).2).2
      "/usr/share/ollama/.ollama/models/blobs".toList { Layers := scenarioLayers }
      "FROM @sha256:aaa\nFROM @sha256:bbb\n".toList
      "# Modelfile\nFROM /local/blob\nTEMPLATE x".toList rfl rfl rfl).trans rfl⟩

/-! ## Base directives, idempotence and the digest slice -/

/-- C1, as stated, fails: for the layer digest `sha512:abc` the run reaches the
creation step and submits a definition that begins `FROM @sha256:abc`, not
`FROM @sha512:abc` as the digest is written in the manifest. -/
theorem Sync_directive_not_manifest_digest :
    (Sync (testEnv sha512Layers scenarioProbe) scenarioConfig []).1 = Outcome.returned none ∧
      claimedDirectives sha512Layers = "FROM @sha512:abc\n".toList ∧
      Event.httpPost "http://remote:11434/api/create".toList "application/json".toList
          (Body.bytes "name=llama:7b&modelfile=FROM @sha256:abc\nTEMPLATE x".toList) ∈
        (Sync (testEnv sha512Layers scenarioProbe) scenarioConfig []).2 ∧
      Event.httpPost "http://remote:11434/api/create".toList "application/json".toList
          (Body.bytes "name=llama:7b&modelfile=FROM @sha512:abc\nTEMPLATE x".toList) ∉
        (Sync (testEnv sha512Layers scenarioProbe) scenarioConfig []).2 := by
  refine ⟨?_, ?_, ?_, ?_⟩ <;> decide

/-- C1, amended: for every manifest whose qualifying layers (media type
beginning with the model, projector or adapter type) have a digest beginning
with `sha256:`, and every run of `Sync` that reaches the creation step, the
definition text handed to `createModel`, and posted in encoded form to the
creation address, is `B ++ T`, where `T` is the filtered definition text and
`B` is the concatenation, in manifest order and without deduplication, of one
line `FROM @<digest>` for each qualifying layer and no other. -/
theorem Sync_definition_text (E : Env) (config : SyncConfig) (tr tr1 tr2 : Trace)
    (blobDir : GoString) (manifest : Manifest) (modelFrom output data : GoString)
    (hdig : ∀ l ∈ manifest.Layers, layerQualifies l = true → "sha256:".toList <+: l.Digest)
    (hload : syncLoad E config tr = (.ok (blobDir, manifest), tr1))
    (hloop : syncLayers E config.RemoteServer blobDir manifest.Layers [] tr1 =
      (.done modelFrom, tr2))
    (hexec : E.Exec tr2 (showArgv config.LocalModel) = .ok output)
    (hmarshal : E.Marshal (ModelCreate.mk config.LocalModel
      (claimedDirectives manifest.Layers ++ parseModelfile output)) = .ok data) :
    modelFrom = claimedDirectives manifest.Layers ∧
      Sync E config tr =
        (Outcome.returned
          (createModel E config.RemoteServer config.LocalModel
            (claimedDirectives manifest.Layers ++ parseModelfile output)
            (Event.exec (showArgv config.LocalModel) :: tr2)).1,
         (createModel E config.RemoteServer config.LocalModel
            (claimedDirectives manifest.Layers ++ parseModelfile output)
            (Event.exec (showArgv config.LocalModel) :: tr2)).2) ∧
      Event.httpPost (createURL config.RemoteServer) "application/json".toList
          (Body.bytes data) ∈ (Sync E config tr).2 := by
  have hmf : modelFrom = claimedDirectives manifest.Layers := by
    rw [syncLayers_done E config.RemoteServer blobDir manifest.Layers [] modelFrom tr1 tr2 hloop,
      List.nil_append, builtDirectives_eq_claimed manifest.Layers hdig]
  have hs := Sync_reaches_create E config tr tr1 tr2 blobDir manifest modelFrom output hload
    hloop hexec
  rw [hmf] at hs
  refine ⟨hmf, hs, ?_⟩
  rw [hs]
  unfold createModel
  simp only [hmarshal]
  split
  · simp
  · split <;> simp

/-- C1 (amended) in the end-to-end scenario of the specification: the layers
`sha256:aaa` (weights), `sha256:bbb` (projector) and `sha256:ccc` (licence)
give a definition beginning `FROM @sha256:aaa\nFROM @sha256:bbb\n`. -/
theorem Sync_definition_text_witness :
    claimedDirectives scenarioLayers = "FROM @sha256:aaa\nFROM @sha256:bbb\n".toList ∧
      Event.httpPost (createURL scenarioConfig.RemoteServer) "application/json".toList
          (Body.bytes
            "name=llama:7b&modelfile=FROM @sha256:aaa\nFROM @sha256:bbb\nTEMPLATE x".toList) ∈
        (Sync scenarioEnv scenarioConfig []).2 :=
  ⟨by decide,
   (Sync_definition_text scenarioEnv scenarioConfig []
      (syncLoad scenarioEnv scenarioConfig []).2
      (syncLayers scenarioEnv scenarioConfig.RemoteServer
        "/usr/share/ollama/.ollama/models/blobs".toList scenarioLayers []
        (syncLoad scenarioEnv scenarioConfig []).2).2
      "/usr/share/ollama/.ollama/models/blobs".toList { Layers := scenarioLayers }
      "FROM @sha256:aaa\nFROM @sha256:bbb\n".toList
      "# Modelfile\nFROM /local/blob\nTEMPLATE x".toList
      "name=llama:7b&modelfile=FROM @sha256:aaa\nFROM @sha256:bbb\nTEMPLATE x".toList
      (by decide) rfl rfl rfl rfl).2.2⟩

/-- C3, as stated, fails: the remote answers the existence probe of the
layer's digest `sha512:abc` with 200, yet `Sync` probes `sha256:abc`, finds it
absent and issues a blob upload request. -/
theorem Sync_uploads_despite_present_digest :
    (∀ l ∈ sha512Layers, layerQualifies l = true →
        (testEnv sha512Layers sha512Probe).Head []
            (scenarioConfig.RemoteServer ++ "/api/blobs/".toList ++ l.Digest) =
          .ok { StatusCode := 200, Status := "200 OK".toList }) ∧
      Event.httpPost "http://remote:11434/api/blobs/sha256:abc".toList
          "application/octet-stream".toList
          (Body.file "/usr/share/ollama/.ollama/models/blobs/sha256-abc".toList) ∈
        (Sync (testEnv sha512Layers sha512Probe) scenarioConfig []).2 := by
  constructor
  · intro l hl _
    have : l = { MediaType := mediaModel, Digest := "sha512:abc".toList } := by
      simpa [sha512Layers] using hl
    subst this
    rfl
  · decide

/-- C3, amended: for every manifest whose qualifying layers have a digest
beginning with `sha256:`, and every remote that answers the existence probe of
each of these digests with 200, a run of `Sync` (from any history, so also a
second run after a first one) whose definition provider succeeds and whose
creation request is answered with 200 returns success, and the only `POST`
request it issues is the creation request: no blob upload is requested. -/
theorem Sync_all_present_no_upload (E : Env) (config : SyncConfig) (tr tr1 : Trace)
    (blobDir : GoString) (manifest : Manifest)
    (hload : syncLoad E config tr = (.ok (blobDir, manifest), tr1))
    (hdig : ∀ l ∈ manifest.Layers, layerQualifies l = true → "sha256:".toList <+: l.Digest)
    (hhead : ∀ h, ∀ l ∈ manifest.Layers, layerQualifies l = true →
      ∃ resp, E.Head h (config.RemoteServer ++ "/api/blobs/".toList ++ l.Digest) = .ok resp ∧
        resp.StatusCode = 200)
    (hexec : ∀ h, ∃ output, E.Exec h (showArgv config.LocalModel) = .ok output)
    (hmarshal : ∀ mc, ∃ data, E.Marshal mc = .ok data)
    (hcreate : ∀ h data, ∃ resp,
      E.Post h (createURL config.RemoteServer) "application/json".toList (Body.bytes data) =
        .ok resp ∧ resp.StatusCode = 200) :
    (Sync E config tr).1 = Outcome.returned none ∧
      ∃ data, postRequests (Sync E config tr).2 =
        Event.httpPost (createURL config.RemoteServer) "application/json".toList
          (Body.bytes data) :: postRequests tr := by
  have hlen : ∀ l ∈ manifest.Layers, layerQualifies l = true → 7 ≤ l.Digest.length :=
    fun l hl hq => sha256_prefix_length l.Digest (hdig l hl hq)
  have hhead2 : ∀ h, ∀ l ∈ manifest.Layers, layerQualifies l = true →
      ∃ resp, E.Head h (blobURL config.RemoteServer (l.Digest.drop 7)) = .ok resp ∧
        resp.StatusCode = 200 := by
    intro h l hl hq
    obtain ⟨resp, hr, hc⟩ := hhead h l hl hq
    refine ⟨resp, ?_, hc⟩
    rw [← hr]
    congr 1
    unfold blobURL
    have e1 : "/api/blobs/sha256:".toList = "/api/blobs/".toList ++ "sha256:".toList := rfl
    rw [e1]
    simp only [List.append_assoc]
    rw [sha256_prefix_drop l.Digest (hdig l hl hq)]
  obtain ⟨modelFrom, tr2, hloop, hposts⟩ :=
    syncLayers_all_present E config.RemoteServer blobDir manifest.Layers [] tr1 hlen hhead2
  obtain ⟨output, hout⟩ := hexec tr2
  obtain ⟨data, hdata⟩ := hmarshal
    { Name := config.LocalModel, Modelfile := modelFrom ++ parseModelfile output }
  obtain ⟨resp, hresp, hcode⟩ := hcreate (Event.exec (showArgv config.LocalModel) :: tr2) data
  have hc : createModel E config.RemoteServer config.LocalModel
      (modelFrom ++ parseModelfile output) (Event.exec (showArgv config.LocalModel) :: tr2) =
      (none, Event.print "Model created successfully on the remote server.\n".toList ::
        Event.httpPost (createURL config.RemoteServer) "application/json".toList
          (Body.bytes data) :: Event.exec (showArgv config.LocalModel) :: tr2) := by
    unfold createModel
    simp only [hdata, hresp, hcode, StatusOK, ne_eq, not_true_eq_false, if_false]
  rw [Sync_reaches_create E config tr tr1 tr2 blobDir manifest modelFrom output hload hloop hout,
    hc]
  refine ⟨rfl, data, ?_⟩
  have h1 := syncLoad_postRequests E config tr tr1 blobDir manifest hload
  rw [← h1, ← hposts]
  simp [postRequests, List.filter_cons]

/-- C3 (amended) on the manifest of the end-to-end scenario and a remote that
holds every blob. -/
theorem Sync_all_present_no_upload_witness :
    (Sync (testEnv scenarioLayers presentProbe) scenarioConfig []).1 = Outcome.returned none ∧
      ∃ data, postRequests (Sync (testEnv scenarioLayers presentProbe) scenarioConfig []).2 =
        Event.httpPost (createURL scenarioConfig.RemoteServer) "application/json".toList
          (Body.bytes data) :: postRequests [] :=
  Sync_all_present_no_upload (testEnv scenarioLayers presentProbe) scenarioConfig []
    (syncLoad (testEnv scenarioLayers presentProbe) scenarioConfig []).2
    "/usr/share/ollama/.ollama/models/blobs".toList { Layers := scenarioLayers }
    rfl (by decide)
    (fun _ _ _ _ => ⟨{ StatusCode := 200, Status := "200 OK".toList }, rfl, rfl⟩)
    (fun _ => ⟨"# Modelfile\nFROM /local/blob\nTEMPLATE x".toList, rfl⟩)
    (fun mc => ⟨"name=".toList ++ mc.Name ++ "&modelfile=".toList ++ mc.Modelfile, rfl⟩)
    (fun _ _ => ⟨{ StatusCode := 200, Status := "200 OK".toList }, rfl, rfl⟩)

/-- C10, evaluated at the failing inputs: a qualifying layer whose digest is
empty, and one whose digest is `md5:ab` (non-empty algorithm and hex), make
`Sync` end in a run-time panic at the slice `layer.Digest[7:]`, after the
manifest was loaded and before any request to the remote. -/
theorem Sync_panics_on_short_digest :
    sliceFrom "".toList 7 = none ∧
      sliceFrom "md5:ab".toList 7 = none ∧
      (Sync (testEnv [{ MediaType := mediaModel, Digest := "".toList }] presentProbe)
        scenarioConfig []).1 = Outcome.panicked ∧
      (Sync (testEnv [{ MediaType := mediaModel, Digest := "md5:ab".toList }] presentProbe)
        scenarioConfig []).1 = Outcome.panicked ∧
      postRequests (Sync (testEnv [{ MediaType := mediaModel, Digest := "md5:ab".toList }]
        presentProbe) scenarioConfig []).2 = [] := by
  refine ⟨?_, ?_, ?_, ?_, ?_⟩ <;> decide

end Spitter
